import Mathlib

set_option maxRecDepth 163840

/-!
Verification of the core bridging logic of matrix-appservice-slack
(SlackGhost, SlackHookHandler, PgDatastore) against its specification.

The TypeScript sources are shallowly embedded: each class method that a
claim mentions becomes a Lean function over explicit state; asynchronous
external collaborators (the Slack web client, the Matrix Intent, the
postgres connection) become parameters or explicit table values; code
that can throw returns Except.
-/

namespace SlackBridge

/-- JavaScript truthiness of an optional string: undefined and the empty
string are falsy. -/
def jsTruthy : Option String → Bool
  | none => false
  | some s => s ≠ ""

/-- JS a || b for optional strings with JS falsiness. -/
def jsOr (a b : Option String) : Option String :=
  if jsTruthy a then a else b

/-- JS String.prototype.toUpperCase: uppercase every character
independently. -/
def jsToUpperCase (s : String) : String := ⟨s.data.map Char.toUpper⟩

/-! ## SlackGhost: constructor, toEntry, update (SlackGhost.ts) -/

/-- A persisted user entry (datastore/Models UserEntry as used by
SlackGhost.toEntry). -/
structure UserEntry where
  id : String
  slack_id : String
  team_id : Option String
  display_name : Option String
  avatar_url : Option String
  deriving Repr, DecidableEq

/-- The mutable fields of a SlackGhost relevant to the verified claims. -/
structure SlackGhost where
  slackId : String
  teamId : Option String
  userId : String
  displayname : Option String
  avatarHash : Option String
  updateInProgress : Bool
  deriving Repr, DecidableEq

/-- SlackGhost constructor (SlackGhost.ts lines 63-75): stores the fields
and then overwrites slackId with slackId.toUpperCase(); teamId is
uppercased only when truthy (a JS if (teamId) guard), and
updateInProgress is initialized to false. -/
def SlackGhost.make (slackId : String) (teamId : Option String)
    (userId : String) (displayname : Option String)
    (avatarHash : Option String) : SlackGhost :=
  { slackId := jsToUpperCase slackId
    teamId := if jsTruthy teamId then teamId.map jsToUpperCase else teamId
    userId := userId
    displayname := displayname
    avatarHash := avatarHash
    updateInProgress := false }

/-- SlackGhost.toEntry (SlackGhost.ts lines 81-89). -/
def SlackGhost.toEntry (g : SlackGhost) : UserEntry :=
  { avatar_url := g.avatarHash
    display_name := g.displayname
    id := g.userId
    slack_id := g.slackId
    team_id := g.teamId }

/-! ### update() and its in-progress flag (SlackGhost.ts lines 91-110)

update() checks updateInProgress synchronously; if set it returns at
once, performing no profile mutation. Otherwise it sets the flag, awaits
the displayname and avatar syncs (the only code paths that call the
local-platform mutation primitives setDisplayName / setAvatarUrl /
uploadContent), and finally clears the flag. A call that overlaps a
running one is exactly a call whose entry observes updateInProgress =
true.

We split the call at its await boundary: updateEnter is the synchronous
prefix up to and including setting the flag, updateExit is the final
flag clear. The Bool returned by updateEnter says whether this call
proceeds to the profile mutations. -/

/-- Entry of SlackGhost.update: if the flag is set, return immediately
(no mutations); otherwise set the flag and proceed. -/
def SlackGhost.updateEnter (g : SlackGhost) : Bool × SlackGhost :=
  if g.updateInProgress then (false, g)
  else (true, { g with updateInProgress := true })

/-- Exit of SlackGhost.update (only reached by a proceeding call):
clears the flag. -/
def SlackGhost.updateExit (g : SlackGhost) : SlackGhost :=
  { g with updateInProgress := false }

/-- The local-platform profile mutation primitives a proceeding update
may issue (via updateDisplayname / updateAvatar). -/
inductive ProfileMutation
  | setDisplayName
  | setAvatarUrl
  | uploadContent
  deriving Repr, DecidableEq

/-- The mutation calls issued by one update() call: a call that did not
pass the flag check issues none; a proceeding call issues whatever its
displayname/avatar sync decides (abstracted as muts). -/
def SlackGhost.mutationsOf (proceeds : Bool)
    (muts : List ProfileMutation) : List ProfileMutation :=
  if proceeds then muts else []

/-! ## PgDatastore users table (PgDatastore.ts lines 41-77)

The users table has three columns (userId primary key, isRemote flag,
json) and is represented as a list of rows. Both upsertUser and
storeMatrixUser run INSERT ... ON CONFLICT (userId) DO UPDATE SET
json = ...: on conflict only the json column is replaced, the flag
keeps its old value. getUser selects by userId with no condition on the
flag. -/

/-- One row of the users table: (userId, isRemote, json). The json
payload is kept abstract. -/
structure UserRow (V : Type) where
  userId : String
  isRemote : Bool
  json : V
  deriving Repr, DecidableEq

/-- The users table. -/
abbrev UsersTable (V : Type) : Type := List (UserRow V)

/-- INSERT INTO users VALUES(id, flag, json) ON CONFLICT (userId) DO
UPDATE SET json = json: if a row with this primary key exists, only its
json column is replaced; otherwise a fresh row is inserted. -/
def usersUpsert {V : Type} (id : String) (flag : Bool) (json : V)
    (t : UsersTable V) : UsersTable V :=
  if t.any (fun r => r.userId = id) then
    t.map (fun r => if r.userId = id then { r with json := json } else r)
  else
    t ++ [⟨id, flag, json⟩]

/-- PgDatastore.upsertUser (lines 41-48): inserts the ghost entry with
the isRemote flag true. -/
def upsertUser {V : Type} (id : String) (json : V) (t : UsersTable V) :
    UsersTable V :=
  usersUpsert id true json t

/-- PgDatastore.storeMatrixUser (lines 71-77): inserts the serialized
matrix user with the isRemote flag false. -/
def storeMatrixUser {V : Type} (id : String) (json : V)
    (t : UsersTable V) : UsersTable V :=
  usersUpsert id false json t

/-- PgDatastore.getUser (lines 50-56): SELECT * FROM users WHERE
userId = id, returning the parsed json of the row if present; there is
no condition on the isRemote flag. -/
def getUser {V : Type} (id : String) (t : UsersTable V) : Option V :=
  (t.find? (fun r => r.userId = id)).map (fun r => r.json)

/-- PgDatastore.getMatrixUser (lines 58-62): normalizes the id through
the MatrixUser class (abstracted as the function normalize) and wraps a
non-null getUser result as a MatrixUser (modelled as the pair of the
normalized id and the stored data). -/
def getMatrixUser {V : Type} (normalize : String → String) (id : String)
    (t : UsersTable V) : Option (String × V) :=
  (getUser (normalize id) t).map (fun v => (normalize id, v))

/-- A write against the users table issued by one of the two store
operations. -/
inductive UserWrite (V : Type)
  | upsertGhost (id : String) (json : V)
  | storeMatrix (id : String) (json : V)

/-- The primary key a write targets. -/
def UserWrite.id {V : Type} : UserWrite V → String
  | .upsertGhost i _ => i
  | .storeMatrix i _ => i

/-- The json payload a write stores. -/
def UserWrite.json {V : Type} : UserWrite V → V
  | .upsertGhost _ j => j
  | .storeMatrix _ j => j

/-- Apply one write. -/
def applyUserWrite {V : Type} (t : UsersTable V) : UserWrite V → UsersTable V
  | .upsertGhost i j => upsertUser i j t
  | .storeMatrix i j => storeMatrixUser i j t

/-- Apply a sequence of writes in order. -/
def applyUserWrites {V : Type} (t : UsersTable V) (ws : List (UserWrite V)) :
    UsersTable V :=
  ws.foldl applyUserWrite t

/-- The payload of the last write in ws that targets id, if any. -/
def lastWritten {V : Type} (id : String) (ws : List (UserWrite V)) :
    Option V :=
  (ws.filterMap (fun w => if w.id = id then some w.json else none)).getLast?

/-! ## PgDatastore events table (PgDatastore.ts lines 113-162)

One row per relayed event: columns roomId, eventId, slackChannel,
slackTs, extras. JSON serialization of the extras payload is modelled
as the identity round-trip (JSON.parse after JSON.stringify), so extras
stay an abstract type. -/

/-- An EventEntry (datastore/Models) with abstract extras payload. -/
structure EventEntry (E : Type) where
  roomId : String
  eventId : String
  slackChannelId : String
  slackTs : String
  _extras : E
  deriving Repr, DecidableEq

/-- One row of the events table. -/
structure EventRow (E : Type) where
  roomId : String
  eventId : String
  slackChannel : String
  slackTs : String
  extras : E
  deriving Repr, DecidableEq

/-- The events table. -/
abbrev EventsTable (E : Type) : Type := List (EventRow E)

/-- Modelled from the spec: the unique constraint cons_events_unique of
the events table lives in the schema files (datastore/postgres/schema),
which are not part of the provided sources. The spec states the table
is unique on (roomId, eventId) and on (slackChannelId, slackTs) and
that upsertEvent is an insert-or-replace on these dual unique keys, so
a new entry conflicts with a row when it agrees with it on either key
pair. -/
def eventConflict {E : Type} (e : EventEntry E) (r : EventRow E) : Bool :=
  (r.roomId = e.roomId ∧ r.eventId = e.eventId) ∨
  (r.slackChannel = e.slackChannelId ∧ r.slackTs = e.slackTs)

/-- PgDatastore.upsertEvent, entry form (lines 113-130): INSERT INTO
events VALUES(...) ON CONFLICT ON CONSTRAINT cons_events_unique DO
UPDATE SET extras = jsonExtras — on conflict only the extras column of
the conflicting row is replaced, otherwise a fresh row is inserted. -/
def upsertEventEntry {E : Type} (e : EventEntry E) (t : EventsTable E) :
    EventsTable E :=
  if t.any (eventConflict e) then
    t.map (fun r => if eventConflict e r then { r with extras := e._extras } else r)
  else
    t ++ [⟨e.roomId, e.eventId, e.slackChannelId, e.slackTs, e._extras⟩]

/-- PgDatastore.upsertEvent, positional form (lines 113-123): builds an
EventEntry from the four fields with _extras defaulting to the empty
payload (extras || {} in the source) and stores it like the entry
form. -/
def upsertEventFields {E : Type} (emptyExtras : E) (roomId eventId channelId ts : String)
    (extras : Option E) (t : EventsTable E) : EventsTable E :=
  upsertEventEntry
    { roomId := roomId
      eventId := eventId
      slackChannelId := channelId
      slackTs := ts
      _extras := extras.getD emptyExtras } t

/-- pg-promise oneOrNone over the rows matching a predicate: no row is
null, one row is returned, several rows reject the query. -/
def oneOrNone {E : Type} (p : EventRow E → Bool) (t : EventsTable E) :
    Except String (Option (EventRow E)) :=
  match t.filter p with
  | [] => .ok none
  | [r] => .ok (some r)
  | _ => .error "Multiple rows were not expected"

/-- PgDatastore.getEventByMatrixId (lines 132-146): SELECT by roomId
and eventId; a found row is returned as an EventEntry rebuilt from the
query arguments plus the row's slackChannel/slackTs/extras columns. -/
def getEventByMatrixId {E : Type} (roomId eventId : String)
    (t : EventsTable E) : Except String (Option (EventEntry E)) :=
  (oneOrNone (fun r => r.roomId = roomId ∧ r.eventId = eventId) t).map
    (fun res => res.map (fun r =>
      { roomId := roomId
        eventId := eventId
        slackChannelId := r.slackChannel
        slackTs := r.slackTs
        _extras := r.extras }))

/-- PgDatastore.getEventBySlackId (lines 148-162): SELECT by
slackChannel and slackTs; a found row is returned as an EventEntry
rebuilt from the query arguments plus the row's roomid/eventid/extras
columns. -/
def getEventBySlackId {E : Type} (slackChannel slackTs : String)
    (t : EventsTable E) : Except String (Option (EventEntry E)) :=
  (oneOrNone (fun r => r.slackChannel = slackChannel ∧ r.slackTs = slackTs) t).map
    (fun res => res.map (fun r =>
      { roomId := r.roomId
        eventId := r.eventId
        slackChannelId := slackChannel
        slackTs := slackTs
        _extras := r.extras }))

/-! ## PgDatastore schema migration (PgDatastore.ts lines 164-179 and
397-414) -/

/-- The latest schema version (PgDatastore.LATEST_SCHEMA). -/
def LATEST_SCHEMA : Nat := 7

/-- The schema table: either absent (a fresh database) or holding the
single stored version row. -/
inductive SchemaTable
  | missing
  | present (version : Nat)
  deriving Repr, DecidableEq

/-- PgDatastore.getSchemaVersion (lines 402-414): SELECT version FROM
schema; a missing table (postgres error 42P01) is treated as version 0,
not an error. -/
def getSchemaVersion : SchemaTable → Nat
  | .missing => 0
  | .present v => v

/-- The outcome of one ensureSchema call: whether it returned or threw,
the stored schema version afterwards, and the sequence of version
values written by updateSchemaVersion, in order. -/
structure EnsureSchemaResult where
  result : Except String Unit
  storedVersion : Nat
  versionWrites : List Nat
  deriving Repr

/-- The migration loop of PgDatastore.ensureSchema (lines 166-177): while
the current version is below LATEST_SCHEMA, run the next numbered
migration (whether schema/v(n) succeeds is abstracted as the predicate
stepOk); on success increment the version and persist it via
updateSchemaVersion, on an exception stop and throw, leaving the stored
version at the last persisted value. -/
def ensureSchemaFrom (stepOk : Nat → Bool) (cur : Nat) : EnsureSchemaResult :=
  if _h : cur < LATEST_SCHEMA then
    if stepOk (cur + 1) then
      let rest := ensureSchemaFrom stepOk (cur + 1)
      { rest with versionWrites := (cur + 1) :: rest.versionWrites }
    else
      { result := .error "Failed to update database schema"
        storedVersion := cur
        versionWrites := [] }
  else
    { result := .ok ()
      storedVersion := cur
      versionWrites := [] }
termination_by LATEST_SCHEMA - cur

/-- PgDatastore.ensureSchema (lines 164-179): reads the current version
(0 for a fresh database) and runs the migration loop from there. -/
def ensureSchema (stepOk : Nat → Bool) (t : SchemaTable) : EnsureSchemaResult :=
  ensureSchemaFrom stepOk (getSchemaVersion t)

/-! ## SlackHookHandler.lookupMessage (SlackHookHandler source, lines
862-902)

The conversations.history response and the two file-enrichment
collaborators (enablePublicSharing, fetchFileContent, both defined in
BaseSlackHandler outside the provided sources) are abstracted: the
response is a value, the collaborators are Except-returning
parameters. F is the slack file payload type, B the remaining message
payload, C the fetched binary content. -/

/-- A message as returned by conversations.history: its subtype, its
optional file attachment, and the rest of its payload kept opaque. -/
structure HistMessage (F B : Type) where
  subtype : Option String
  file : Option F
  rest : B
  deriving Repr, DecidableEq

/-- The relevant fields of a ConversationsHistoryResponse. -/
structure ConversationsHistoryResponse (F B : Type) where
  ok : Bool
  error : Option String
  messages : Option (List (HistMessage F B))
  deriving Repr, DecidableEq

/-- SlackHookHandler.lookupMessage (lines 862-902): fails with "Could
not find history" when the response is not ok, has no messages field or
zero messages; fails with "Collision" when several messages share the
microsecond; on exactly one message, file_share messages get their file
made shareable and fetched, and a failure of either enrichment step
falls back to returning the message without content. A successful
enablePublicSharing replaces the message's file field before
fetchFileContent runs, so a fetch failure returns the message with the
updated file. -/
def lookupMessage {F B C : Type}
    (resp : ConversationsHistoryResponse F B)
    (share : Option F → Except Unit F)
    (fetch : F → Except Unit C) :
    Except String (HistMessage F B × Option C) :=
  match resp.messages with
  | none => .error "Could not find history"
  | some msgs =>
    if resp.ok = false then .error "Could not find history"
    else match msgs with
    | [] => .error "Could not find history"
    | [message] =>
      if message.subtype = some "file_share" then
        match share message.file with
        | .error _ => .ok (message, none)
        | .ok f =>
          let message' := { message with file := some f }
          match fetch f with
          | .error _ => .ok (message', none)
          | .ok content => .ok (message', some content)
      else .ok (message, none)
    | _ => .error "Collision"

/-! ## SlackHookHandler.handleAuthorize (lines 761-848)

External collaborators abstracted as parameters: oauth2 presence and
its preauth-token table, exchangeCodeForToken's outcome, Main's
willExceedTeamLimit, the team-client construction for the revoke call,
and the two persistence operations setUserAccessToken and
upsertTeamByToken. The trace records every outbound call made. -/

/-- The code-exchange response: team/user ids, the user access token,
and the optional bot grant. -/
structure ExchangeResp where
  team_id : String
  user_id : String
  access_token : String
  bot_access_token : Option String
  deriving Repr, DecidableEq

/-- Whether the authorize call was resolved against a bound room
(legacy webhook flow) or a preauth token (account-linking flow). -/
inductive RoomOrToken
  | room
  | token (t : String)

/-- The outbound calls handleAuthorize can issue, in order. -/
inductive AuthCall
  | exchangeCodeForToken
  | createTeamClient
  | authRevoke
  | setUserAccessToken
  | upsertTeamByToken
  deriving Repr, DecidableEq

/-- The HTTP result handleAuthorize returns to handleWebhook: an
optional status code (absent on the success page, which defaults to
200 at the call site) and the HTML body. -/
structure AuthorizeResult where
  code : Option Nat
  html : String
  deriving Repr, DecidableEq

/-- The rejection page for an exceeded team limit (lines 807-813). -/
def teamLimitHtml : String :=
  "<h2>Integration Failed</h2>\n" ++
  "<p>You have reached the limit of Slack teams that can be bridged to Matrix. Please contact your admin.</p>"

/-- The generic failure page of the outer catch (lines 832-841). -/
def authFailHtml (isRoom : Bool) : String :=
  "<h2>Integration Failed</h2>\n" ++
  "<p>Unfortunately, your " ++ (if isRoom then "channel integration" else "account") ++
  " did not go as expected...</p>"

/-- The success page (lines 842-847). -/
def authSuccessHtml (isRoom : Bool) : String :=
  "<h2>Integration Successful!</h2>\n" ++
  "<p>Your Matrix-Slack " ++ (if isRoom then "channel integration" else "account") ++
  " is now correctly authorized.</p>"

/-- SlackHookHandler.handleAuthorize (lines 761-848). Parameters:
oauthConfigured — whether this.main.oauth2 is set; roomOrToken — the
caller kind; preauth — oauth2.getUserIdForPreauthToken; exchange — the
outcome of oauth2.exchangeCodeForToken; willExceed — Main's
willExceedTeamLimit by team id; createTeamClientOk — whether building
the temporary client for the revoke succeeds (if not, the revoke call
is never reached; either way the failure is caught and only logged);
setTokenResult / upsertTeamResult — outcomes of the two persistence
calls, whose exceptions reach the outer catch. -/
def handleAuthorize (oauthConfigured : Bool) (roomOrToken : RoomOrToken)
    (preauth : String → Option String) (exchange : Except Unit ExchangeResp)
    (willExceed : String → Bool) (createTeamClientOk : Bool)
    (setTokenResult : Except Unit Unit) (upsertTeamResult : Except Unit Unit) :
    AuthorizeResult × List AuthCall :=
  if oauthConfigured = false then
    ({ code := some 500, html := "OAuth is not configured on this bridge." }, [])
  else
    let isRoom : Bool := match roomOrToken with | .room => true | .token _ => false
    match roomOrToken with
    | .token t =>
      match preauth t with
      | none => ({ code := some 500, html := "Token not known." }, [])
      | some _user =>
        match exchange with
        | .error _ => ({ code := some 403, html := authFailHtml isRoom }, [.exchangeCodeForToken])
        | .ok resp =>
          if willExceed resp.team_id then
            ({ code := some 403, html := teamLimitHtml },
              [.exchangeCodeForToken, .createTeamClient] ++
                (if createTeamClientOk then [.authRevoke] else []))
          else
            match setTokenResult with
            | .error _ =>
              ({ code := some 403, html := authFailHtml isRoom },
                [.exchangeCodeForToken, .setUserAccessToken])
            | .ok _ =>
              match resp.bot_access_token with
              | none =>
                ({ code := none, html := authSuccessHtml isRoom },
                  [.exchangeCodeForToken, .setUserAccessToken])
              | some _ =>
                match upsertTeamResult with
                | .error _ =>
                  ({ code := some 403, html := authFailHtml isRoom },
                    [.exchangeCodeForToken, .setUserAccessToken, .upsertTeamByToken])
                | .ok _ =>
                  ({ code := none, html := authSuccessHtml isRoom },
                    [.exchangeCodeForToken, .setUserAccessToken, .upsertTeamByToken])
    | .room =>
      match exchange with
      | .error _ => ({ code := some 403, html := authFailHtml isRoom }, [.exchangeCodeForToken])
      | .ok _ => ({ code := none, html := authSuccessHtml isRoom }, [.exchangeCodeForToken])

/-! ## A JavaScript regular-expression engine for the two literal
patterns of SlackHookHandler

getUrlParts matches its url against /^(\/?.*\/)*(.{32})(?:\/(.*))?$/
and handleWebhook splits a GET path against /^([^?]+)(?:\?(.*))$/.
Both are anchored, so String.prototype.match is a full match from
position 0. We embed an ECMAScript backtracking matcher over a small
regex AST: matchRe returns every (remaining input, captures) pair
reachable by matching a prefix, in the engine's backtracking priority
order (greedy quantifiers first), so the engine's answer is the first
listed result that consumed the whole input. Star iterations that
consume nothing are cut off, as the ECMAScript RepeatMatcher
prescribes. The fuel argument bounds star unfoldings; each iteration
must consume at least one character, so any fuel beyond the input
length plus the star-nesting depth changes nothing. -/

/-- Regex AST: empty, a character class (a Char predicate; the dot and
literal characters are classes), concatenation, greedy star, greedy
option, and a numbered capture group. -/
inductive RE
  | eps
  | cls (p : Char → Bool)
  | seq (a b : RE)
  | star (a : RE)
  | opt (a : RE)
  | group (idx : Nat) (a : RE)

/-- Captured groups: later entries for the same index shadow earlier
ones, an absent index is an undefined group. -/
abbrev Caps := List (Nat × List Char)

/-- Read group i. -/
def capGet (caps : Caps) (i : Nat) : Option (List Char) :=
  (caps.find? (fun c => c.1 = i)).map (fun c => c.2)

/-- A literal character. -/
def chr (c : Char) : RE := .cls (fun d => d = c)

/-- The dot: any character except a line terminator. -/
def dot : RE := .cls (fun d => d ≠ '\n')

/-- An exact repetition a{n}, unfolded into a concatenation. -/
def repN (a : RE) : Nat → RE
  | 0 => .eps
  | n + 1 => .seq a (repN a n)

/-- The backtracking matcher: all (rest, captures) results of matching
a prefix of s against re, in priority order. Every recursive call
spends one unit of fuel, so the recursion is structural and reduces in
the kernel; exhausted fuel yields no results, which only ever truncates
the result list, and jsFullMatch supplies far more fuel than the
deepest possible exploration of its two fixed patterns can use. -/
def matchRe : Nat → RE → List Char → Caps → List (List Char × Caps)
  | 0, _, _, _ => []
  | fuel + 1, re, s, caps =>
    match re with
    | .eps => [(s, caps)]
    | .cls p =>
      match s with
      | [] => []
      | c :: rest => if p c then [(rest, caps)] else []
    | .seq a b =>
      (matchRe fuel a s caps).flatMap (fun q => matchRe fuel b q.1 q.2)
    | .opt a => matchRe fuel a s caps ++ [(s, caps)]
    | .star a =>
      ((matchRe fuel a s caps).filter (fun q => q.1.length < s.length)).flatMap
        (fun q => matchRe fuel (.star a) q.1 q.2) ++ [(s, caps)]
    | .group i a =>
      (matchRe fuel a s caps).map
        (fun q => (q.1, (i, s.take (s.length - q.1.length)) :: q.2))

/-- str.match(/^re$/): the first backtracking result that consumed the
whole string, if any, as its captures. -/
def jsFullMatch (re : RE) (s : String) : Option Caps :=
  ((matchRe ((s.length + 8) * 64) re s.data []).find? (fun q => q.1.isEmpty)).map
    (fun q => q.2)

/-- Group 1 of the url pattern: one leading-path piece \/?.*\/. -/
def slashPiece : RE :=
  .group 1 (.seq (.opt (chr '/')) (.seq (.star dot) (chr '/')))

/-- The pattern of getUrlParts: ^(\/?.*\/)*(.{32})(?:\/(.*))?$. -/
def urlRegex : RE :=
  .seq (.star slashPiece)
    (.seq (.group 2 (repN dot 32))
      (.opt (.seq (chr '/') (.group 3 (.star dot)))))

/-- The GET query-split pattern of handleWebhook: ^([^?]+)(?:\?(.*))$.
Note the (?:\?(.*)) part carries no quantifier: a path without a
question mark does not match at all. -/
def queryRegex : RE :=
  .seq (.group 1 (.seq (.cls (fun c => c ≠ '?')) (.star (.cls (fun c => c ≠ '?')))))
    (.seq (chr '?') (.group 2 (.star dot)))

/-- The result of getUrlParts. -/
structure UrlParts where
  inboundId : String
  path : String
  deriving Repr, DecidableEq

/-- SlackHookHandler.getUrlParts (lines 608-614): on a match, inboundId
is group 2 and path is group 3 with the JS fallback
urlMatch[3] || "post" (an undefined or empty group yields "post"); no
match throws the malformed-input error. -/
def getUrlParts (url : String) : Except String UrlParts :=
  match jsFullMatch urlRegex url with
  | none => .error "URL is in incorrect format"
  | some caps =>
    .ok
      { inboundId := String.mk ((capGet caps 2).getD [])
        path :=
          match capGet caps 3 with
          | some p => if p.isEmpty then "post" else String.mk p
          | none => "post" }

/-! ## SlackHookHandler.handlePost and handleWebhook (lines 625-759) -/

/-- The state of the resolved BridgedRoom that handlePost consults:
whether assigning the refreshed channel name left it dirty, and whether
it has an elevated Slack client (room.SlackClient). -/
structure RoomState where
  isDirty : Bool
  hasSlackClient : Bool
  deriving Repr, DecidableEq

/-- The form parameters of a legacy webhook POST; absent fields are
undefined. -/
structure PostParams where
  team_domain : Option String
  channel_name : Option String
  channel_id : Option String
  user_id : Option String
  text : Option String
  ts : Option String
  timestamp : Option String
  deriving Repr, DecidableEq

/-- The calls handlePost can issue, in order. -/
inductive PostCall
  | upsertRoom
  | incCounter
  | onSlackMessage
  | lookupMessageCall
  | doChannelUserReplacements
  deriving Repr, DecidableEq

/-- SlackHookHandler.handlePost (lines 703-759): refresh the cached
channel name (persisting the room when dirty), drop USLACKBOT
self-reflections before counting, count the received message, then
either hand the inline text to the room directly (no elevated client;
a falsy text means no handoff at all) or enrich via lookupMessage and
hand off the looked-up message after mention substitution. A
lookupMessage failure propagates. -/
def handlePost {F B C : Type} (room : RoomState) (params : PostParams)
    (histResp : ConversationsHistoryResponse F B)
    (share : Option F → Except Unit F) (fetch : F → Except Unit C) :
    List PostCall × Except String Unit :=
  let afterRoom : List PostCall := if room.isDirty then [.upsertRoom] else []
  if params.user_id = some "USLACKBOT" then
    (afterRoom, .ok ())
  else
    let counted := afterRoom ++ [.incCounter]
    if room.hasSlackClient = false then
      if jsTruthy params.text then (counted ++ [.onSlackMessage], .ok ())
      else (counted, .ok ())
    else
      let looked := counted ++ [.lookupMessageCall]
      match lookupMessage histResp share fetch with
      | .error e => (looked, .error e)
      | .ok _ =>
        (looked ++ [.doChannelUserReplacements, .onSlackMessage], .ok ())

/-- A timer outcome tag. -/
inductive TimerOutcome
  | success
  | fail
  | dropped
  deriving Repr, DecidableEq

/-- What one handleWebhook invocation did: the endTimer outcomes
emitted in order, the HTTP status written (none if the handler threw
before responding), the calls made by handlePost if it ran, and
whether the invocation threw out of the handler. -/
structure WebhookResult where
  timerOutcomes : List TimerOutcome
  status : Option Nat
  postCalls : List PostCall
  crashed : Bool
  deriving Repr, DecidableEq

/-- result.code || HTTP_CODES.OK with JS falsiness on numbers. -/
def jsStatusOr200 : Option Nat → Nat
  | none => 200
  | some 0 => 200
  | some c => c

/-- The tail of handleWebhook after the inbound id and path have been
resolved (lines 653-700): the authorize branch responds with the
handleAuthorize result and a success timer; an unresolved room is
acknowledged with 200 and a dropped timer; POST .../post runs
handlePost, timing success or fail and answering 200 either way; any
other method/path is acknowledged with 200 and a dropped timer.
handleAuthorize always resolves, so its result is a plain value
here. -/
def handleWebhookResolved {F B C : Type} (method path inboundId : String)
    (rooms : String → Option RoomState) (authResult : AuthorizeResult)
    (params : PostParams) (histResp : ConversationsHistoryResponse F B)
    (share : Option F → Except Unit F) (fetch : F → Except Unit C) :
    WebhookResult :=
  if method = "GET" ∧ path = "authorize" then
    { timerOutcomes := [.success]
      status := some (jsStatusOr200 authResult.code)
      postCalls := []
      crashed := false }
  else
    match rooms inboundId with
    | none =>
      { timerOutcomes := [.dropped], status := some 200, postCalls := [], crashed := false }
    | some room =>
      if method = "POST" ∧ path = "post" then
        match handlePost room params histResp share fetch with
        | (calls, .ok _) =>
          { timerOutcomes := [.success], status := some 200, postCalls := calls, crashed := false }
        | (calls, .error _) =>
          { timerOutcomes := [.fail], status := some 200, postCalls := calls, crashed := false }
      else
        { timerOutcomes := [.dropped], status := some 200, postCalls := [], crashed := false }

/-- SlackHookHandler.handleWebhook (lines 625-701). A malformed url is
answered 404 with a dropped timer. For a GET, the path segment is then
split at its query string with path.match(/^([^?]+)(?:\?(.*))$/) and
the non-null assertion result![1]: a GET path with no question mark
(or starting with one) makes the match null and the assertion throw,
so the handler crashes before writing any response or ending the
timer. -/
def handleWebhook {F B C : Type} (method url : String)
    (rooms : String → Option RoomState) (authResult : AuthorizeResult)
    (params : PostParams) (histResp : ConversationsHistoryResponse F B)
    (share : Option F → Except Unit F) (fetch : F → Except Unit C) :
    WebhookResult :=
  match getUrlParts url with
  | .error _ =>
    { timerOutcomes := [.dropped], status := some 404, postCalls := [], crashed := false }
  | .ok parts =>
    if method = "GET" then
      match jsFullMatch queryRegex parts.path with
      | none =>
        { timerOutcomes := [], status := none, postCalls := [], crashed := true }
      | some caps =>
        handleWebhookResolved method (String.mk ((capGet caps 1).getD []))
          parts.inboundId rooms authResult params histResp share fetch
    else
      handleWebhookResolved method parts.path parts.inboundId rooms authResult
        params histResp share fetch

/-- Whether the url contains a 32-character inbound-id segment in the
position the url pattern expects: a decomposition prefix ++ seg ++
rest with the prefix empty or ending in a slash, seg of length 32, and
the rest empty or starting with a slash. -/
def hasInboundIdSegment (url : String) : Bool :=
  (List.range (url.length + 1)).any (fun i =>
    let a := url.data.take i
    let b := (url.data.drop i).take 32
    let c := (url.data.drop i).drop 32
    (a.isEmpty || a.getLast? = some '/') &&
    b.length = 32 &&
    (c.isEmpty || c.head? = some '/'))

/-! ## Helper lemmas: users table -/

/-- The conflict-update of a row under key i does not change which row
a lookup under a different key id finds, nor that row itself. -/
theorem find?_map_update_other {V : Type} (id i : String) (j : V)
    (t : List (UserRow V)) (hne : i ≠ id) :
    List.find? (fun r => r.userId = id)
        (t.map (fun r => if r.userId = i then { r with json := j } else r))
      = List.find? (fun r => r.userId = id) t := by
  induction t with
  | nil => simp
  | cons r rest ih =>
    simp only [List.map_cons]
    by_cases hri : r.userId = i
    · have hrid : ¬(r.userId = id) := fun hc => hne (by rw [← hri, hc])
      have h1 : (decide (({ r with json := j } : UserRow V).userId = id)) = false :=
        decide_eq_false hrid
      rw [if_pos hri]
      simp only [List.find?_cons, h1, decide_eq_false hrid]
      exact ih
    · rw [if_neg hri]
      simp only [List.find?_cons]
      cases hpa : decide (r.userId = id)
      · simp only [hpa]
        exact ih
      · simp only [hpa]

/-- After the conflict-update of every row under key id, the row a
lookup under id finds carries the new json. -/
theorem find?_map_update_self {V : Type} (id : String) (j : V)
    (t : List (UserRow V)) (h : t.any (fun r => r.userId = id) = true) :
    Option.map (fun r => r.json)
        (List.find? (fun r => r.userId = id)
          (t.map (fun r => if r.userId = id then { r with json := j } else r)))
      = some j := by
  induction t with
  | nil => simp at h
  | cons r rest ih =>
    simp only [List.map_cons]
    by_cases hrid : r.userId = id
    · have h1 : (decide (({ r with json := j } : UserRow V).userId = id)) = true :=
        decide_eq_true hrid
      rw [if_pos hrid]
      simp only [List.find?_cons, h1]
      rfl
    · have hrest : rest.any (fun r => r.userId = id) = true := by
        rcases List.any_eq_true.mp h with ⟨x, hx, hpx⟩
        rcases List.mem_cons.mp hx with hx | hx
        · exact absurd (by simpa [hx] using hpx) hrid
        · exact List.any_eq_true.mpr ⟨x, hx, hpx⟩
      rw [if_neg hrid]
      simp only [List.find?_cons, decide_eq_false hrid]
      exact ih hrest

/-- Looking up a key right after upserting it returns the upserted
json, whatever flag the operation used and whatever the table held. -/
theorem getUser_usersUpsert_self {V : Type} (id : String) (flag : Bool)
    (j : V) (t : UsersTable V) :
    getUser id (usersUpsert id flag j t) = some j := by
  unfold usersUpsert getUser
  by_cases h : t.any (fun r => r.userId = id) = true
  · rw [if_pos h]
    exact find?_map_update_self id j t h
  · rw [if_neg h]
    have hall : ∀ r ∈ t, ¬(r.userId = id) := by
      intro r hr
      simpa using (List.any_eq_false.mp (Bool.eq_false_iff.mpr h)) r hr
    have hnone : t.find? (fun r => decide (r.userId = id)) = none :=
      List.find?_eq_none.mpr (by simpa using hall)
    rw [List.find?_append, hnone]
    simp [List.find?_cons]

/-- A store operation under a different key leaves a lookup
unchanged. -/
theorem getUser_usersUpsert_other {V : Type} (id i : String) (flag : Bool)
    (j : V) (t : UsersTable V) (hne : i ≠ id) :
    getUser id (usersUpsert i flag j t) = getUser id t := by
  unfold usersUpsert getUser
  by_cases h : t.any (fun r => r.userId = i) = true
  · rw [if_pos h, find?_map_update_other id i j t hne]
  · rw [if_neg h]
    have hnew : List.find? (fun r => decide (r.userId = id))
        [(⟨i, flag, j⟩ : UserRow V)] = none := by
      simp [List.find?_cons, hne]
    rw [List.find?_append, hnew]
    cases hfind : t.find? (fun r => decide (r.userId = id)) <;> simp [hfind]

/-- A single write to another key leaves a lookup unchanged. -/
theorem getUser_applyUserWrite_other {V : Type} (id : String)
    (w : UserWrite V) (t : UsersTable V) (hne : w.id ≠ id) :
    getUser id (applyUserWrite t w) = getUser id t := by
  cases w with
  | upsertGhost i j => exact getUser_usersUpsert_other id i true j t hne
  | storeMatrix i j => exact getUser_usersUpsert_other id i false j t hne

/-- A run of writes none of which targets id leaves a lookup
unchanged. -/
theorem getUser_applyUserWrites_frame {V : Type} (id : String)
    (ws : List (UserWrite V)) (t : UsersTable V)
    (h : ∀ w ∈ ws, w.id ≠ id) :
    getUser id (applyUserWrites t ws) = getUser id t := by
  induction ws generalizing t with
  | nil => rfl
  | cons w rest ih =>
    have hstep := getUser_applyUserWrite_other id w t (h w (by simp))
    have := ih (applyUserWrite t w) (fun w' hw' => h w' (by simp [hw']))
    simpa [applyUserWrites] using this.trans hstep

/-- After any sequence of writes, a lookup returns the payload of the
last write that targeted the key. -/
theorem getUser_lastWritten {V : Type} (id : String)
    (ws : List (UserWrite V)) (t : UsersTable V) (j : V)
    (h : lastWritten id ws = some j) :
    getUser id (applyUserWrites t ws) = some j := by
  induction ws generalizing t with
  | nil => simp [lastWritten] at h
  | cons w rest ih =>
    by_cases hrest : lastWritten id rest = none
    · -- no later write targets id: the head write must be the last one
      have hnil : rest.filterMap
          (fun w'' => if w''.id = id then some w''.json else none) = [] := by
        simpa [lastWritten, List.getLast?_eq_none_iff] using hrest
      have hall : ∀ w' ∈ rest, w'.id ≠ id := by
        intro w' hw' hid
        have := (List.filterMap_eq_nil_iff.mp hnil) w' hw'
        simp [hid] at this
      have hwid : w.id = id := by
        by_contra hwid
        rw [lastWritten, List.filterMap_cons, if_neg hwid, hnil] at h
        simp at h
      have hj : w.json = j := by
        rw [lastWritten, List.filterMap_cons, if_pos hwid, hnil] at h
        simpa using h
      have hframe := getUser_applyUserWrites_frame id rest (applyUserWrite t w) hall
      have hself : getUser id (applyUserWrite t w) = some j := by
        cases w with
        | upsertGhost i jj =>
          cases hwid
          cases hj
          exact getUser_usersUpsert_self i true jj t
        | storeMatrix i jj =>
          cases hwid
          cases hj
          exact getUser_usersUpsert_self i false jj t
      simpa [applyUserWrites] using hframe.trans hself
    · -- a later write targets id: its payload wins
      have hlast : lastWritten id (w :: rest) = lastWritten id rest := by
        rw [lastWritten, List.filterMap_cons]
        rcases hsome : rest.filterMap
            (fun w'' => if w''.id = id then some w''.json else none) with _ | ⟨x, xs⟩
        · exact absurd (by simpa [lastWritten, List.getLast?_eq_none_iff] using hsome)
            hrest
        · cases hw : (if w.id = id then some w.json else none) with
          | none => simp [lastWritten, hsome, hw]
          | some v => simp [lastWritten, hsome, hw]
      rw [hlast] at h
      simpa [applyUserWrites] using ih (applyUserWrite t w) h

/-! ## Helper lemma: schema migration loop -/

/-- Full characterization of the migration loop from any version not
beyond LATEST_SCHEMA: the persisted version writes are the consecutive
integers from the start version plus one up to the final stored
version, every persisted step succeeded, a normal return means the
stored version reached LATEST_SCHEMA, and a thrown return means the
stored version stopped strictly below it, right before the failing
step. -/
theorem ensureSchemaFrom_spec (stepOk : Nat → Bool) (cur : Nat)
    (h : cur ≤ LATEST_SCHEMA) :
    (ensureSchemaFrom stepOk cur).versionWrites
        = List.range' (cur + 1) ((ensureSchemaFrom stepOk cur).storedVersion - cur) ∧
    cur ≤ (ensureSchemaFrom stepOk cur).storedVersion ∧
    (∀ w ∈ (ensureSchemaFrom stepOk cur).versionWrites, stepOk w = true) ∧
    ((ensureSchemaFrom stepOk cur).result = .ok () →
      (ensureSchemaFrom stepOk cur).storedVersion = LATEST_SCHEMA) ∧
    (∀ e, (ensureSchemaFrom stepOk cur).result = .error e →
      (ensureSchemaFrom stepOk cur).storedVersion < LATEST_SCHEMA ∧
      stepOk ((ensureSchemaFrom stepOk cur).storedVersion + 1) = false) := by
  rw [ensureSchemaFrom]
  by_cases hlt : cur < LATEST_SCHEMA
  · rw [dif_pos hlt]
    by_cases hstep : stepOk (cur + 1) = true
    · rw [if_pos hstep]
      obtain ⟨h1, h2, h3, h4, h5⟩ := ensureSchemaFrom_spec stepOk (cur + 1) hlt
      simp only
      refine ⟨?_, ?_, ?_, h4, h5⟩
      · rw [h1]
        have hn : (ensureSchemaFrom stepOk (cur + 1)).storedVersion - cur
            = ((ensureSchemaFrom stepOk (cur + 1)).storedVersion - (cur + 1)) + 1 := by
          omega
        rw [hn, List.range'_succ]
      · omega
      · intro w hw
        rcases List.mem_cons.mp hw with hw | hw
        · rw [hw]; exact hstep
        · exact h3 w hw
    · rw [if_neg hstep]
      refine ⟨by simp, Nat.le_refl cur, by simp, by simp, ?_⟩
      intro e _
      exact ⟨hlt, Bool.not_eq_true _ ▸ Bool.eq_false_iff.mpr hstep⟩
  · rw [dif_neg hlt]
    have hcur : cur = LATEST_SCHEMA := Nat.le_antisymm h (Nat.not_lt.mp hlt)
    exact ⟨by simp, Nat.le_refl cur, by simp, fun _ => hcur, by simp⟩
termination_by LATEST_SCHEMA - cur
decreasing_by omega

/-! ## Claim theorems -/

/-- C6: a SlackGhost constructed from any lowercase or mixed-case
slack id (and team id, when present) stores the uppercased ids, so the
UserEntry its toEntry produces — including the one persisted by
upsertUser — carries uppercase slack_id and team_id. -/
theorem C6_ghost_ids_uppercased (slackId : String) (teamId : Option String)
    (userId : String) (dn ah : Option String) (t : UsersTable UserEntry) :
    (SlackGhost.make slackId teamId userId dn ah).toEntry.slack_id
        = jsToUpperCase slackId ∧
    (SlackGhost.make slackId teamId userId dn ah).toEntry.team_id
        = teamId.map jsToUpperCase ∧
    getUser userId
        (upsertUser userId ((SlackGhost.make slackId teamId userId dn ah).toEntry) t)
      = some ((SlackGhost.make slackId teamId userId dn ah).toEntry) := by
  refine ⟨rfl, ?_, getUser_usersUpsert_self userId true _ t⟩
  cases teamId with
  | none => rfl
  | some s =>
    by_cases hs : s = ""
    · subst hs
      simp [SlackGhost.make, SlackGhost.toEntry, jsTruthy, jsToUpperCase]
    · simp [SlackGhost.make, SlackGhost.toEntry, jsTruthy, hs]

/-- C9: the isRemote kind flag written by upsertUser (true) and
storeMatrixUser (false) is never filtered on point lookup: getUser
returns the json of the last write stored under the id by either
operation, a record written by storeMatrixUser is visible through
getUser, and a ghost record written by upsertUser is visible through
getMatrixUser under the same primary key. -/
theorem C9_kind_flag_not_filtered {V : Type} (id : String)
    (ws : List (UserWrite V)) (t : UsersTable V) (j : V)
    (normalize : String → String)
    (hlast : lastWritten id ws = some j) (hnorm : normalize id = id) :
    getUser id (applyUserWrites t ws) = some j ∧
    (∀ v, getUser id (storeMatrixUser id v t) = some v) ∧
    (∀ v, getMatrixUser normalize id (upsertUser id v t) = some (id, v)) := by
  refine ⟨getUser_lastWritten id ws t j hlast, ?_, ?_⟩
  · intro v
    exact getUser_usersUpsert_self id false v t
  · intro v
    unfold getMatrixUser
    rw [hnorm]
    rw [show upsertUser id v t = usersUpsert id true v t from rfl,
      getUser_usersUpsert_self id true v t]
    rfl

/-- C9 witness: two writes under the same key, a matrix-user record
then a ghost record; the lookups see the kind flag ignored. -/
theorem C9_kind_flag_not_filtered_witness :
    getUser "@u:h"
        (applyUserWrites ([] : UsersTable Nat)
          [UserWrite.storeMatrix "@u:h" 1, UserWrite.upsertGhost "@u:h" 2])
      = some 2 ∧
    (∀ v, getUser "@u:h" (storeMatrixUser "@u:h" v ([] : UsersTable Nat)) = some v) ∧
    (∀ v, getMatrixUser (fun s => s) "@u:h" (upsertUser "@u:h" v ([] : UsersTable Nat))
      = some ("@u:h", v)) :=
  C9_kind_flag_not_filtered "@u:h"
    [UserWrite.storeMatrix "@u:h" 1, UserWrite.upsertGhost "@u:h" 2]
    [] 2 (fun s => s) (by rfl) rfl

/-- C4: of two update() calls where the second starts while the first
is still updating, the first proceeds and the second observes the
in-progress flag: it returns at once, performs no profile mutation
call, and leaves the ghost unchanged (dropped, not queued); the
first call alone performs its mutations, and its exit clears the
flag. -/
theorem C4_concurrent_update_dropped (g : SlackGhost)
    (muts1 muts2 : List ProfileMutation)
    (hidle : g.updateInProgress = false) :
    (g.updateEnter).1 = true ∧
    ((g.updateEnter).2.updateEnter).1 = false ∧
    ((g.updateEnter).2.updateEnter).2 = (g.updateEnter).2 ∧
    SlackGhost.mutationsOf ((g.updateEnter).2.updateEnter).1 muts2 = [] ∧
    SlackGhost.mutationsOf (g.updateEnter).1 muts1 = muts1 ∧
    ((g.updateEnter).2.updateExit).updateInProgress = false := by
  simp [SlackGhost.updateEnter, SlackGhost.updateExit, SlackGhost.mutationsOf, hidle]

/-- C4 witness: a freshly constructed ghost starts idle, so the
overlapping-call scenario applies to it. -/
theorem C4_concurrent_update_dropped_witness :
    ((SlackGhost.make "u1" none "@u:h" none none).updateEnter).1 = true ∧
    (((SlackGhost.make "u1" none "@u:h" none none).updateEnter).2.updateEnter).1 = false ∧
    (((SlackGhost.make "u1" none "@u:h" none none).updateEnter).2.updateEnter).2
      = ((SlackGhost.make "u1" none "@u:h" none none).updateEnter).2 ∧
    SlackGhost.mutationsOf
        (((SlackGhost.make "u1" none "@u:h" none none).updateEnter).2.updateEnter).1
        [ProfileMutation.setDisplayName] = [] ∧
    SlackGhost.mutationsOf ((SlackGhost.make "u1" none "@u:h" none none).updateEnter).1
        [ProfileMutation.setAvatarUrl] = [ProfileMutation.setAvatarUrl] ∧
    (((SlackGhost.make "u1" none "@u:h" none none).updateEnter).2.updateExit).updateInProgress
      = false :=
  C4_concurrent_update_dropped (SlackGhost.make "u1" none "@u:h" none none)
    [ProfileMutation.setAvatarUrl] [ProfileMutation.setDisplayName] rfl

/-- C3: ensureSchema reads the stored version (0 when the schema table
is missing), then advances it to LATEST_SCHEMA in monotonically
increasing single-version steps; in a run where a migration step
throws, the persisted version stops at the last successfully completed
step, strictly below LATEST_SCHEMA, and the call fails. -/
theorem C3_ensureSchema_stepwise (stepOk : Nat → Bool) (t : SchemaTable)
    (h : getSchemaVersion t ≤ LATEST_SCHEMA) :
    getSchemaVersion SchemaTable.missing = 0 ∧
    (ensureSchema stepOk t).versionWrites
        = List.range' (getSchemaVersion t + 1)
            ((ensureSchema stepOk t).storedVersion - getSchemaVersion t) ∧
    getSchemaVersion t ≤ (ensureSchema stepOk t).storedVersion ∧
    (∀ w ∈ (ensureSchema stepOk t).versionWrites, stepOk w = true) ∧
    ((ensureSchema stepOk t).result = .ok () →
      (ensureSchema stepOk t).storedVersion = LATEST_SCHEMA) ∧
    (∀ e, (ensureSchema stepOk t).result = .error e →
      (ensureSchema stepOk t).storedVersion < LATEST_SCHEMA ∧
      stepOk ((ensureSchema stepOk t).storedVersion + 1) = false) := by
  obtain ⟨h1, h2, h3, h4, h5⟩ := ensureSchemaFrom_spec stepOk (getSchemaVersion t) h
  exact ⟨rfl, h1, h2, h3, h4, h5⟩

/-- C3 witness: on a fresh store with every migration succeeding, the
loop persists exactly versions 1 through 7 in order. -/
theorem C3_ensureSchema_stepwise_witness :
    (ensureSchema (fun _ => true) SchemaTable.missing).versionWrites
        = List.range' (getSchemaVersion SchemaTable.missing + 1)
            ((ensureSchema (fun _ => true) SchemaTable.missing).storedVersion
              - getSchemaVersion SchemaTable.missing) ∧
    ((ensureSchema (fun _ => true) SchemaTable.missing).result = .ok () →
      (ensureSchema (fun _ => true) SchemaTable.missing).storedVersion = LATEST_SCHEMA) :=
  ⟨(C3_ensureSchema_stepwise (fun _ => true) SchemaTable.missing (by decide)).2.1,
   (C3_ensureSchema_stepwise (fun _ => true) SchemaTable.missing (by decide)).2.2.2.2.1⟩

/-- C2: the history lookup fails with "Could not find history" when
the query yields no messages (a missing messages field, an empty list,
or a not-ok response), fails with "Collision" when two or more
messages share the microsecond, and on exactly one message returns
that message plus the optional fetched file content, where a failure
of either file-enrichment step falls back to returning the message
without content instead of failing. -/
theorem C2_lookupMessage_cases {F B C : Type}
    (resp : ConversationsHistoryResponse F B)
    (share : Option F → Except Unit F) (fetch : F → Except Unit C)
    (msgs : List (HistMessage F B)) (m : HistMessage F B) :
    (resp.messages = none →
      lookupMessage resp share fetch = .error "Could not find history") ∧
    (resp.messages = some [] →
      lookupMessage resp share fetch = .error "Could not find history") ∧
    (resp.ok = false → resp.messages = some msgs →
      lookupMessage resp share fetch = .error "Could not find history") ∧
    (resp.ok = true → resp.messages = some msgs → 2 ≤ msgs.length →
      lookupMessage resp share fetch = .error "Collision") ∧
    (resp.ok = true → resp.messages = some [m] →
      (m.subtype ≠ some "file_share" →
        lookupMessage resp share fetch = .ok (m, none)) ∧
      (m.subtype = some "file_share" →
        (∀ e, share m.file = .error e →
          lookupMessage resp share fetch = .ok (m, none)) ∧
        (∀ f, share m.file = .ok f →
          (∀ e, fetch f = .error e →
            lookupMessage resp share fetch = .ok ({ m with file := some f }, none)) ∧
          (∀ c, fetch f = .ok c →
            lookupMessage resp share fetch = .ok ({ m with file := some f }, some c))))) := by
  refine ⟨?_, ?_, ?_, ?_, ?_⟩
  · intro h
    simp [lookupMessage, h]
  · intro h
    cases hok : resp.ok <;> simp [lookupMessage, h, hok]
  · intro hok h
    simp [lookupMessage, h, hok]
  · intro hok h hlen
    match msgs, hlen with
    | a :: b :: rest, _ => simp [lookupMessage, h, hok]
  · intro hok h
    refine ⟨?_, ?_⟩
    · intro hsub
      simp [lookupMessage, h, hok, hsub]
    · intro hsub
      refine ⟨?_, ?_⟩
      · intro e hshare
        simp [lookupMessage, h, hok, hsub, hshare]
      · intro f hshare
        refine ⟨?_, ?_⟩
        · intro e hfetch
          simp [lookupMessage, h, hok, hsub, hshare, hfetch]
        · intro c hfetch
          simp [lookupMessage, h, hok, hsub, hshare, hfetch]

/-- C2 witness: concrete instances of the zero-message failure, the
collision failure, the single-message success and the enrichment
fallback. -/
theorem C2_lookupMessage_cases_witness :
    lookupMessage (F := Unit) (B := Unit) (C := Unit)
        { ok := true, error := none, messages := some [] }
        (fun _ => .error ()) (fun _ => .error ())
      = .error "Could not find history" ∧
    lookupMessage (F := Unit) (B := Unit) (C := Unit)
        { ok := true, error := none,
          messages := some [⟨none, none, ()⟩, ⟨none, none, ()⟩] }
        (fun _ => .error ()) (fun _ => .error ())
      = .error "Collision" ∧
    lookupMessage (F := Unit) (B := Unit) (C := Unit)
        { ok := true, error := none,
          messages := some [⟨some "file_share", some (), ()⟩] }
        (fun _ => .ok ()) (fun _ => .error ())
      = .ok (⟨some "file_share", some (), ()⟩, none) := by
  refine ⟨?_, ?_, ?_⟩
  · exact (C2_lookupMessage_cases _ (fun _ => .error ()) (fun _ => .error ())
      [] ⟨none, none, ()⟩).2.1 rfl
  · exact (C2_lookupMessage_cases _ (fun _ => .error ()) (fun _ => .error ())
      [⟨none, none, ()⟩, ⟨none, none, ()⟩] ⟨none, none, ()⟩).2.2.2.1 rfl rfl
      (by decide)
  · exact (((C2_lookupMessage_cases _ (fun _ => .ok ()) (fun _ => .error ())
      [] ⟨some "file_share", some (), ()⟩).2.2.2.2 rfl rfl).2 rfl).2 () rfl
      |>.1 () rfl

/-- C5: an OAuth code exchange in the account-linking flow that would
push the bridged-team count over the configured maximum returns the
403 rejection page, issues the best-effort revoke (the temporary team
client is built and, when that succeeds, auth.revoke is called; either
failure is only logged: the result is the same 403 page for every
revoke outcome), and never calls setUserAccessToken (the
user-token/puppet/account persistence) nor upsertTeamByToken. -/
theorem C5_team_limit_rejection (t u : String)
    (preauth : String → Option String) (resp : ExchangeResp)
    (willExceed : String → Bool) (createOk : Bool)
    (setRes upsertRes : Except Unit Unit)
    (hpre : preauth t = some u) (hlimit : willExceed resp.team_id = true) :
    handleAuthorize true (.token t) preauth (.ok resp) willExceed createOk
        setRes upsertRes
      = ({ code := some 403, html := teamLimitHtml },
         [.exchangeCodeForToken, .createTeamClient] ++
           (if createOk then [.authRevoke] else [])) ∧
    AuthCall.createTeamClient ∈
      (handleAuthorize true (.token t) preauth (.ok resp) willExceed createOk
        setRes upsertRes).2 ∧
    (createOk = true → AuthCall.authRevoke ∈
      (handleAuthorize true (.token t) preauth (.ok resp) willExceed createOk
        setRes upsertRes).2) ∧
    AuthCall.setUserAccessToken ∉
      (handleAuthorize true (.token t) preauth (.ok resp) willExceed createOk
        setRes upsertRes).2 ∧
    AuthCall.upsertTeamByToken ∉
      (handleAuthorize true (.token t) preauth (.ok resp) willExceed createOk
        setRes upsertRes).2 := by
  have hmain : handleAuthorize true (.token t) preauth (.ok resp) willExceed createOk
      setRes upsertRes
      = ({ code := some 403, html := teamLimitHtml },
         [.exchangeCodeForToken, .createTeamClient] ++
           (if createOk then [.authRevoke] else [])) := by
    simp [handleAuthorize, hpre, hlimit]
  refine ⟨hmain, ?_, ?_, ?_, ?_⟩ <;> rw [hmain] <;> cases createOk <;> simp

/-- C5 witness: a concrete over-limit exchange is rejected with 403
and no persistence call, with and without a successful revoke. -/
theorem C5_team_limit_rejection_witness :
    handleAuthorize true (.token "tok") (fun _ => some "@u:h")
        (.ok ⟨"T1", "U1", "xoxp", some "xoxb"⟩) (fun _ => true) true
        (.ok ()) (.ok ())
      = ({ code := some 403, html := teamLimitHtml },
         [.exchangeCodeForToken, .createTeamClient, .authRevoke]) ∧
    AuthCall.setUserAccessToken ∉
      (handleAuthorize true (.token "tok") (fun _ => some "@u:h")
        (.ok ⟨"T1", "U1", "xoxp", some "xoxb"⟩) (fun _ => true) true
        (.ok ()) (.ok ())).2 := by
  have h := C5_team_limit_rejection "tok" "@u:h" (fun _ => some "@u:h")
    ⟨"T1", "U1", "xoxp", some "xoxb"⟩ (fun _ => true) true (.ok ()) (.ok ())
    rfl rfl
  exact ⟨h.1.trans (by simp), h.2.2.2.1⟩

/-- Generic shape of the events-table round-trip argument: for any
lookup key predicate q that depends only on the four key columns,
holds of the upserted entry, identifies at most one row of the table,
follows from a conflict, and forces a full key match on the rows of
the table, the rows matching q after the upsert are exactly the
upserted entry's row. -/
theorem filter_upsertEventEntry {E : Type} (e : EventEntry E)
    (t : EventsTable E) (q : EventRow E → Bool)
    (hqext : ∀ (r : EventRow E) (x : E), q { r with extras := x } = q r)
    (hq : ∀ r ∈ t, q r = true → r.roomId = e.roomId ∧ r.eventId = e.eventId ∧
        r.slackChannel = e.slackChannelId ∧ r.slackTs = e.slackTs)
    (hconf : ∀ r ∈ t, eventConflict e r = true → q r = true)
    (hcanon : q ⟨e.roomId, e.eventId, e.slackChannelId, e.slackTs, e._extras⟩ = true)
    (hcnt : t.countP q ≤ 1) :
    (upsertEventEntry e t).filter q
      = [⟨e.roomId, e.eventId, e.slackChannelId, e.slackTs, e._extras⟩] := by
  unfold upsertEventEntry
  by_cases h : t.any (eventConflict e) = true
  · rw [if_pos h]
    rw [List.filter_map]
    have hpf : ∀ r, (q ∘ fun r =>
        if eventConflict e r then { r with extras := e._extras } else r) r = q r := by
      intro r
      cases hc : eventConflict e r <;> simp [hc, hqext]
    rw [List.filter_congr (fun x _ => hpf x)]
    have hex : ∃ r ∈ t, q r = true := by
      rcases List.any_eq_true.mp h with ⟨r, hr, hcf⟩
      exact ⟨r, hr, hconf r hr hcf⟩
    have hpos : 0 < t.countP q := List.countP_pos_iff.mpr hex
    have hone : (t.filter q).length = 1 := by
      rw [← List.countP_eq_length_filter]
      omega
    rcases List.length_eq_one.mp hone with ⟨r0, hr0⟩
    have hr0mem : r0 ∈ t ∧ q r0 = true := by
      have hmem : r0 ∈ t.filter q := by
        rw [hr0]
        exact List.mem_singleton.mpr rfl
      exact ⟨(List.mem_filter.mp hmem).1, (List.mem_filter.mp hmem).2⟩
    obtain ⟨hk1, hk2, hk3, hk4⟩ := hq r0 hr0mem.1 hr0mem.2
    have hcf : eventConflict e r0 = true :=
      decide_eq_true (Or.inl ⟨hk1, hk2⟩)
    rw [hr0]
    simp only [List.map_cons, List.map_nil, hcf, if_true]
    simp [hcf, hk1, hk2, hk3, hk4]
  · rw [if_neg h]
    rw [List.filter_append]
    have hnil : t.filter q = [] := by
      rw [List.filter_eq_nil_iff]
      intro r hr hqr
      obtain ⟨hk1, hk2, _, _⟩ := hq r hr hqr
      have hcf : eventConflict e r = true := decide_eq_true (Or.inl ⟨hk1, hk2⟩)
      exact (List.any_eq_false.mp (Bool.eq_false_iff.mpr h) r hr) hcf
    rw [hnil]
    simp [hcanon]

/-- C1: after upsertEvent stores an entry — in either calling form,
both of which normalize to the same persisted row — getEventByMatrixId
on its (roomId, eventId) returns an entry with the stored
(slackChannelId, slackTs), and getEventBySlackId on its
(slackChannelId, slackTs) returns an entry with the stored
(roomId, eventId): the round-trip holds in both directions. The table
is assumed consistent with the entry's keys: the spec's two uniqueness
invariants hold, and a row agreeing with the entry on one unique key
agrees with it on the other. -/
theorem C1_event_roundtrip {E : Type} (e : EventEntry E) (t : EventsTable E)
    (hM : ∀ r ∈ t, r.roomId = e.roomId → r.eventId = e.eventId →
      r.slackChannel = e.slackChannelId ∧ r.slackTs = e.slackTs)
    (hS : ∀ r ∈ t, r.slackChannel = e.slackChannelId → r.slackTs = e.slackTs →
      r.roomId = e.roomId ∧ r.eventId = e.eventId)
    (hU1 : t.countP (fun r => r.roomId = e.roomId ∧ r.eventId = e.eventId) ≤ 1)
    (hU2 : t.countP (fun r => r.slackChannel = e.slackChannelId ∧ r.slackTs = e.slackTs) ≤ 1) :
    getEventByMatrixId e.roomId e.eventId (upsertEventEntry e t) = .ok (some e) ∧
    getEventBySlackId e.slackChannelId e.slackTs (upsertEventEntry e t) = .ok (some e) ∧
    (∀ (emptyExtras x : E) (roomId eventId channelId ts : String),
      upsertEventFields emptyExtras roomId eventId channelId ts (some x) t
        = upsertEventEntry ⟨roomId, eventId, channelId, ts, x⟩ t) ∧
    (∀ (emptyExtras : E) (roomId eventId channelId ts : String),
      upsertEventFields emptyExtras roomId eventId channelId ts none t
        = upsertEventEntry ⟨roomId, eventId, channelId, ts, emptyExtras⟩ t) := by
  refine ⟨?_, ?_, fun _ _ _ _ _ _ => rfl, fun _ _ _ _ _ => rfl⟩
  · have hfil := filter_upsertEventEntry e t
      (fun r => r.roomId = e.roomId ∧ r.eventId = e.eventId)
      (by intro r x; simp)
      (by
        intro r hr hqr
        obtain ⟨h1, h2⟩ := of_decide_eq_true hqr
        exact ⟨h1, h2, hM r hr h1 h2⟩)
      (by
        intro r hr hcf
        rcases of_decide_eq_true hcf with ⟨h1, h2⟩ | ⟨h1, h2⟩
        · exact decide_eq_true ⟨h1, h2⟩
        · obtain ⟨h3, h4⟩ := hS r hr h1 h2
          exact decide_eq_true ⟨h3, h4⟩)
      (by simp)
      hU1
    unfold getEventByMatrixId oneOrNone
    rw [hfil]
    rfl
  · have hfil := filter_upsertEventEntry e t
      (fun r => r.slackChannel = e.slackChannelId ∧ r.slackTs = e.slackTs)
      (by intro r x; simp)
      (by
        intro r hr hqr
        obtain ⟨h1, h2⟩ := of_decide_eq_true hqr
        obtain ⟨h3, h4⟩ := hS r hr h1 h2
        exact ⟨h3, h4, h1, h2⟩)
      (by
        intro r hr hcf
        rcases of_decide_eq_true hcf with ⟨h1, h2⟩ | ⟨h1, h2⟩
        · obtain ⟨h3, h4⟩ := hM r hr h1 h2
          exact decide_eq_true ⟨h3, h4⟩
        · exact decide_eq_true ⟨h1, h2⟩)
      (by simp)
      hU2
    unfold getEventBySlackId oneOrNone
    rw [hfil]
    rfl

/-- C1 witness: round-trip through a concrete entry on an empty
table, in both calling forms. -/
theorem C1_event_roundtrip_witness :
    getEventByMatrixId "!room:h" "$ev"
        (upsertEventEntry (⟨"!room:h", "$ev", "CHAN", "1585226711.000200", 5⟩ :
          EventEntry Nat) [])
      = .ok (some ⟨"!room:h", "$ev", "CHAN", "1585226711.000200", 5⟩) ∧
    getEventBySlackId "CHAN" "1585226711.000200"
        (upsertEventEntry (⟨"!room:h", "$ev", "CHAN", "1585226711.000200", 5⟩ :
          EventEntry Nat) [])
      = .ok (some ⟨"!room:h", "$ev", "CHAN", "1585226711.000200", 5⟩) ∧
    upsertEventFields 0 "!room:h" "$ev" "CHAN" "1585226711.000200" (some 5)
        ([] : EventsTable Nat)
      = upsertEventEntry ⟨"!room:h", "$ev", "CHAN", "1585226711.000200", 5⟩ [] := by
  have h := C1_event_roundtrip
    (⟨"!room:h", "$ev", "CHAN", "1585226711.000200", 5⟩ : EventEntry Nat) []
    (by simp) (by simp) (by simp) (by simp)
  exact ⟨h.1, h.2.1, h.2.2.1 0 5 "!room:h" "$ev" "CHAN" "1585226711.000200"⟩

/-! ## Language semantics of the regex AST and soundness of the
matcher -/

/-- The language of a regex: which character lists it can match. -/
inductive ReLang : RE → List Char → Prop
  | eps : ReLang .eps []
  | cls {p : Char → Bool} {c : Char} : p c = true → ReLang (.cls p) [c]
  | seq {a b : RE} {x y : List Char} :
      ReLang a x → ReLang b y → ReLang (.seq a b) (x ++ y)
  | starNil {a : RE} : ReLang (.star a) []
  | starCons {a : RE} {x y : List Char} :
      ReLang a x → ReLang (.star a) y → ReLang (.star a) (x ++ y)
  | optSome {a : RE} {x : List Char} : ReLang a x → ReLang (.opt a) x
  | optNone {a : RE} : ReLang (.opt a) []
  | group {i : Nat} {a : RE} {x : List Char} :
      ReLang a x → ReLang (.group i a) x

/-- Soundness of the backtracking matcher: every result matched a
prefix of the input that belongs to the regex's language. -/
theorem matchRe_sound (fuel : Nat) :
    ∀ (re : RE) (s : List Char) (caps : Caps) (q : List Char × Caps),
      q ∈ matchRe fuel re s caps → ∃ x, s = x ++ q.1 ∧ ReLang re x := by
  induction fuel with
  | zero =>
    intro re s caps q hq
    simp [matchRe] at hq
  | succ fuel ih =>
    intro re s caps q hq
    cases re with
    | eps =>
      simp [matchRe] at hq
      exact ⟨[], by simp [hq], ReLang.eps⟩
    | cls p =>
      cases s with
      | nil => simp [matchRe] at hq
      | cons c rest =>
        rw [matchRe] at hq
        by_cases hp : p c = true
        · simp [hp] at hq
          exact ⟨[c], by simp [hq], ReLang.cls hp⟩
        · simp [hp] at hq
    | seq a b =>
      rw [matchRe] at hq
      simp only [List.mem_flatMap] at hq
      obtain ⟨q1, hq1, hq2⟩ := hq
      obtain ⟨x, hx, hlx⟩ := ih a s caps q1 hq1
      obtain ⟨y, hy, hly⟩ := ih b q1.1 q1.2 q hq2
      exact ⟨x ++ y, by rw [hx, hy, List.append_assoc], ReLang.seq hlx hly⟩
    | opt a =>
      rw [matchRe] at hq
      rcases List.mem_append.mp hq with hq | hq
      · obtain ⟨x, hx, hlx⟩ := ih a s caps q hq
        exact ⟨x, hx, ReLang.optSome hlx⟩
      · simp at hq
        exact ⟨[], by simp [hq], ReLang.optNone⟩
    | star a =>
      rw [matchRe] at hq
      rcases List.mem_append.mp hq with hq | hq
      · simp only [List.mem_flatMap] at hq
        obtain ⟨q1, hq1, hq2⟩ := hq
        have hq1' : q1 ∈ matchRe fuel a s caps := (List.mem_filter.mp hq1).1
        obtain ⟨x, hx, hlx⟩ := ih a s caps q1 hq1'
        obtain ⟨y, hy, hly⟩ := ih (.star a) q1.1 q1.2 q hq2
        exact ⟨x ++ y, by rw [hx, hy, List.append_assoc], ReLang.starCons hlx hly⟩
      · simp at hq
        exact ⟨[], by simp [hq], ReLang.starNil⟩
    | group i a =>
      rw [matchRe] at hq
      simp only [List.mem_map] at hq
      obtain ⟨q1, hq1, hq2⟩ := hq
      obtain ⟨x, hx, hlx⟩ := ih a s caps q1 hq1
      refine ⟨x, ?_, ReLang.group hlx⟩
      rw [← hq2]
      exact hx

/-- One leading-path piece always ends in a slash. -/
theorem ReLang_slashPiece_last {x : List Char} (h : ReLang slashPiece x) :
    x.getLast? = some '/' := by
  unfold slashPiece at h
  cases h with
  | group hinner =>
    cases hinner with
    | seq hopt hrest =>
      cases hrest with
      | seq hstar hchr =>
        cases hchr with
        | cls hc =>
          rename_i u v c
          rw [← List.append_assoc, List.getLast?_concat]
          have : c = '/' := of_decide_eq_true hc
          rw [this]

/-- The leading-path prefix is empty or ends in a slash. -/
theorem ReLang_starPiece_shape : ∀ {re : RE} {x : List Char}, ReLang re x →
    re = .star slashPiece → x = [] ∨ x.getLast? = some '/' := by
  intro re x h
  induction h with
  | eps => intro hre; exact absurd hre (by intro hc; cases hc)
  | cls _ => intro hre; exact absurd hre (by intro hc; cases hc)
  | seq _ _ _ _ => intro hre; exact absurd hre (by intro hc; cases hc)
  | optSome _ _ => intro hre; exact absurd hre (by intro hc; cases hc)
  | optNone => intro hre; exact absurd hre (by intro hc; cases hc)
  | group _ _ => intro hre; exact absurd hre (by intro hc; cases hc)
  | starNil => intro _; exact Or.inl rfl
  | starCons h1 h2 ih1 ih2 =>
    intro hre
    rcases ih2 hre with hy | hy
    · injection hre with ha
      rw [hy, List.append_nil]
      exact Or.inr (ReLang_slashPiece_last (ha ▸ h1))
    · right
      rw [List.getLast?_append_of_ne_nil _ (by
        intro hnil
        rw [hnil] at hy
        simp at hy)]
      exact hy

/-- repN of the dot matches exactly n characters. -/
theorem ReLang_repN_dot_length : ∀ (n : Nat) (x : List Char),
    ReLang (repN dot n) x → x.length = n := by
  intro n
  induction n with
  | zero =>
    intro x h
    rw [repN] at h
    cases h
    rfl
  | succ n ih =>
    intro x h
    rw [repN] at h
    cases h with
    | seq hd hrest =>
      rename_i u v
      cases hd with
      | cls _ =>
        simp [ih v hrest]

/-- The optional trailing part is empty or starts with a slash. -/
theorem ReLang_urlTail_shape {x : List Char}
    (h : ReLang (.opt (.seq (chr '/') (.group 3 (.star dot)))) x) :
    x = [] ∨ ∃ x', x = '/' :: x' := by
  cases h with
  | optNone => exact Or.inl rfl
  | optSome hinner =>
    cases hinner with
    | seq hchr hrest =>
      rename_i u v
      cases hchr with
      | cls hc =>
        rename_i c
        have hc' : c = '/' := of_decide_eq_true hc
        exact Or.inr ⟨v, by simp [hc']⟩

/-- If getUrlParts accepts a url, the url has a 32-character segment
in the expected position. -/
theorem getUrlParts_ok_hasSegment (url : String) (p : UrlParts)
    (h : getUrlParts url = .ok p) : hasInboundIdSegment url = true := by
  unfold getUrlParts at h
  cases hjs : jsFullMatch urlRegex url with
  | none => rw [hjs] at h; exact absurd h (by simp)
  | some caps =>
    unfold jsFullMatch at hjs
    cases hfind : (matchRe ((url.length + 8) * 64) urlRegex url.data []).find?
        (fun q => q.1.isEmpty) with
    | none => rw [hfind] at hjs; simp at hjs
    | some q =>
      have hmem : q ∈ matchRe ((url.length + 8) * 64) urlRegex url.data [] :=
        List.mem_of_find?_eq_some hfind
      have hempty := List.find?_some hfind
      obtain ⟨x, hx, hlang⟩ := matchRe_sound _ _ _ _ _ hmem
      have hq1 : q.1 = [] := by simpa using hempty
      rw [hq1, List.append_nil] at hx
      unfold urlRegex at hlang
      cases hlang with
      | seq hA hrest =>
        rename_i a bc
        cases hrest with
        | seq hB hC =>
          rename_i b c
          have hb32 : b.length = 32 := by
            cases hB with
            | group hB' => exact ReLang_repN_dot_length 32 b hB'
          have hashape := ReLang_starPiece_shape hA rfl
          have hcshape := ReLang_urlTail_shape hC
          unfold hasInboundIdSegment
          rw [List.any_eq_true]
          refine ⟨a.length, List.mem_range.mpr ?_, ?_⟩
          · have : url.length = url.data.length := rfl
            rw [this, hx]
            simp
            omega
          · have htake : url.data.take a.length = a := by
              rw [hx, List.take_left]
            have hdrop : url.data.drop a.length = b ++ c := by
              rw [hx, List.drop_left]
            have htake32 : (b ++ c).take 32 = b := by
              rw [← hb32, List.take_left]
            have hdrop32 : (b ++ c).drop 32 = c := by
              rw [← hb32, List.drop_left]
            simp only [htake, hdrop, htake32, hdrop32, Bool.and_eq_true,
              Bool.or_eq_true]
            refine ⟨⟨?_, ?_⟩, ?_⟩
            · rcases hashape with ha | ha
              · left; simp [ha]
              · right; simp [ha]
            · simp [hb32]
            · rcases hcshape with hc | ⟨c', hc⟩
              · left; simp [hc]
              · right; simp [hc]

/-- C7 counterexample: on the claim's input, getUrlParts returns path
"authorize?x=1" — the query string is still attached — not
"authorize"; the query split happens later, in handleWebhook's GET
branch. -/
theorem C7_getUrlParts_counterexample :
    getUrlParts "/abc/01234567890123456789012345678901/authorize?x=1"
      ≠ .ok { inboundId := "01234567890123456789012345678901", path := "authorize" } ∧
    getUrlParts "/abc/01234567890123456789012345678901/authorize?x=1"
      = .ok { inboundId := "01234567890123456789012345678901",
              path := "authorize?x=1" } := by
  have heval : getUrlParts "/abc/01234567890123456789012345678901/authorize?x=1"
      = .ok { inboundId := "01234567890123456789012345678901",
              path := "authorize?x=1" } := by rfl
  refine ⟨?_, heval⟩
  intro hcontra
  rw [heval] at hcontra
  simp at hcontra

/-- C7 amended: getUrlParts on the claim's input yields inboundId
"01234567890123456789012345678901" and path "authorize?x=1" (with the
query string still attached); and every url that has no 32-character
segment in the expected position — no split into a prefix that is
empty or ends in a slash, a 32-character segment, and a rest that is
empty or starts with a slash — raises the malformed-input error. -/
theorem C7_getUrlParts_amended :
    getUrlParts "/abc/01234567890123456789012345678901/authorize?x=1"
      = .ok { inboundId := "01234567890123456789012345678901",
              path := "authorize?x=1" } ∧
    ∀ url : String, hasInboundIdSegment url = false →
      getUrlParts url = .error "URL is in incorrect format" := by
  refine ⟨by rfl, ?_⟩
  intro url hno
  cases hres : getUrlParts url with
  | error e =>
    unfold getUrlParts at hres
    cases hjs : jsFullMatch urlRegex url with
    | none =>
      rw [hjs] at hres
      injection hres with he
      rw [he]
    | some caps =>
      rw [hjs] at hres
      exact absurd hres (by simp)
  | ok parts =>
    have := getUrlParts_ok_hasSegment url parts hres
    rw [this] at hno
    exact absurd hno (by simp)

/-- C7 amended witness: a short url with no 32-character segment is
rejected with the malformed-input error. -/
theorem C7_getUrlParts_amended_witness :
    getUrlParts "abc" = .error "URL is in incorrect format" :=
  C7_getUrlParts_amended.2 "abc" (by decide)

/-- Once the url has been resolved, every branch of handleWebhook ends
the timer exactly once and returns normally. -/
theorem handleWebhookResolved_timer {F B C : Type}
    (method path inboundId : String) (rooms : String → Option RoomState)
    (authResult : AuthorizeResult) (params : PostParams)
    (histResp : ConversationsHistoryResponse F B)
    (share : Option F → Except Unit F) (fetch : F → Except Unit C) :
    (handleWebhookResolved method path inboundId rooms authResult params
        histResp share fetch).crashed = false ∧
    (handleWebhookResolved method path inboundId rooms authResult params
        histResp share fetch).timerOutcomes.length = 1 := by
  unfold handleWebhookResolved
  by_cases h1 : method = "GET" ∧ path = "authorize"
  · rw [if_pos h1]
    exact ⟨rfl, rfl⟩
  · rw [if_neg h1]
    split
    · exact ⟨rfl, rfl⟩
    · rename_i rm
      by_cases h2 : method = "POST" ∧ path = "post"
      · rw [if_pos h2]
        split <;> exact ⟨rfl, rfl⟩
      · rw [if_neg h2]
        exact ⟨rfl, rfl⟩

/-- C8 amended: every handleWebhook invocation that does not throw
ends the request timer exactly once, with an outcome among success,
fail and dropped; the one throwing branch — a GET whose resolved path
has no query string, where the non-null assertion on the query-split
match throws — ends the timer zero times. -/
theorem C8_timer_once_amended {F B C : Type} (method url : String)
    (rooms : String → Option RoomState) (authResult : AuthorizeResult)
    (params : PostParams) (histResp : ConversationsHistoryResponse F B)
    (share : Option F → Except Unit F) (fetch : F → Except Unit C) :
    ((handleWebhook method url rooms authResult params histResp share
        fetch).crashed = false →
      (handleWebhook method url rooms authResult params histResp share
        fetch).timerOutcomes.length = 1) ∧
    ((handleWebhook method url rooms authResult params histResp share
        fetch).crashed = true →
      method = "GET" ∧
      (handleWebhook method url rooms authResult params histResp share
        fetch).timerOutcomes = []) ∧
    (∀ o ∈ (handleWebhook method url rooms authResult params histResp share
        fetch).timerOutcomes,
      o = .success ∨ o = .fail ∨ o = .dropped) := by
  refine ⟨?_, ?_, fun o _ => by cases o <;> simp⟩
  · unfold handleWebhook
    split
    · intro _
      rfl
    · rename_i parts hparts
      split
      · split
        · intro h
          simp at h
        · rename_i caps hcaps
          intro _
          exact (handleWebhookResolved_timer method
            (String.mk ((capGet caps 1).getD [])) parts.inboundId rooms
            authResult params histResp share fetch).2
      · intro _
        exact (handleWebhookResolved_timer method parts.path parts.inboundId
          rooms authResult params histResp share fetch).2
  · unfold handleWebhook
    split
    · intro h
      simp at h
    · rename_i parts hparts
      split
      · rename_i hm
        split
        · intro _
          exact ⟨hm, rfl⟩
        · rename_i caps hcaps
          intro h
          exact absurd ((handleWebhookResolved_timer method
            (String.mk ((capGet caps 1).getD [])) parts.inboundId rooms
            authResult params histResp share fetch).1.symm.trans h) (by simp)
      · intro h
        exact absurd ((handleWebhookResolved_timer method parts.path
          parts.inboundId rooms authResult params histResp share
          fetch).1.symm.trans h) (by simp)

/-- C8 amended witness: a POST to an unresolved inbound id is timed
exactly once. -/
theorem C8_timer_once_amended_witness :
    (handleWebhook (F := Unit) (B := Unit) (C := Unit) "POST"
        "/abc/01234567890123456789012345678901/post" (fun _ => none)
        ⟨none, ""⟩ ⟨none, none, none, none, none, none, none⟩
        ⟨false, none, none⟩ (fun _ => .error ())
        (fun _ => .error ())).timerOutcomes.length = 1 :=
  (C8_timer_once_amended "POST" "/abc/01234567890123456789012345678901/post"
    (fun _ => none) ⟨none, ""⟩ ⟨none, none, none, none, none, none, none⟩
    ⟨false, none, none⟩ (fun _ => .error ()) (fun _ => .error ())).1 rfl

/-- C8 counterexample: a GET to .../authorize with no query string
reaches the query-split non-null assertion, which throws: the handler
crashes and the request timer is ended zero times, not once. -/
theorem C8_timer_once_counterexample :
    (handleWebhook (F := Unit) (B := Unit) (C := Unit) "GET"
        "/abc/01234567890123456789012345678901/authorize" (fun _ => none)
        ⟨none, ""⟩ ⟨none, none, none, none, none, none, none⟩
        ⟨false, none, none⟩ (fun _ => .error ())
        (fun _ => .error ())).timerOutcomes = [] ∧
    (handleWebhook (F := Unit) (B := Unit) (C := Unit) "GET"
        "/abc/01234567890123456789012345678901/authorize" (fun _ => none)
        ⟨none, ""⟩ ⟨none, none, none, none, none, none, none⟩
        ⟨false, none, none⟩ (fun _ => .error ())
        (fun _ => .error ())).crashed = true ∧
    (handleWebhook (F := Unit) (B := Unit) (C := Unit) "GET"
        "/abc/01234567890123456789012345678901/authorize" (fun _ => none)
        ⟨none, ""⟩ ⟨none, none, none, none, none, none, none⟩
        ⟨false, none, none⟩ (fun _ => .error ())
        (fun _ => .error ())).timerOutcomes.length ≠ 1 := by
  refine ⟨rfl, rfl, ?_⟩
  intro h
  rw [show (handleWebhook (F := Unit) (B := Unit) (C := Unit) "GET"
      "/abc/01234567890123456789012345678901/authorize" (fun _ => none)
      ⟨none, ""⟩ ⟨none, none, none, none, none, none, none⟩
      ⟨false, none, none⟩ (fun _ => .error ())
      (fun _ => .error ())).timerOutcomes = [] from rfl] at h
  simp at h

/-- C10: a legacy webhook POST resolved to a room with no elevated
Slack client and with no text form parameter is silently dropped after
the channel-name refresh — the room's message handler is never
invoked — while handlePost still resolves, so the request is answered
with HTTP 200 and the timer outcome is success, not dropped. -/
theorem C10_no_token_no_text_dropped {F B C : Type} (url : String)
    (parts : UrlParts) (rooms : String → Option RoomState) (rm : RoomState)
    (authResult : AuthorizeResult) (params : PostParams)
    (histResp : ConversationsHistoryResponse F B)
    (share : Option F → Except Unit F) (fetch : F → Except Unit C)
    (hurl : getUrlParts url = .ok parts) (hpath : parts.path = "post")
    (hroom : rooms parts.inboundId = some rm)
    (hclient : rm.hasSlackClient = false) (htext : params.text = none) :
    PostCall.onSlackMessage ∉ (handlePost rm params histResp share fetch).1 ∧
    (handlePost rm params histResp share fetch).2 = .ok () ∧
    (handleWebhook "POST" url rooms authResult params histResp share
        fetch).timerOutcomes = [.success] ∧
    (handleWebhook "POST" url rooms authResult params histResp share
        fetch).status = some 200 := by
  have hpost : handlePost rm params histResp share fetch
      = ((if rm.isDirty then [PostCall.upsertRoom] else []) ++
          (if params.user_id = some "USLACKBOT" then [] else [PostCall.incCounter]),
         .ok ()) := by
    unfold handlePost
    by_cases huser : params.user_id = some "USLACKBOT"
    · simp [huser]
    · simp [huser, hclient, htext, jsTruthy]
  have hnotmem : PostCall.onSlackMessage ∉ (handlePost rm params histResp share fetch).1 := by
    intro hmem
    rw [hpost] at hmem
    rcases List.mem_append.mp hmem with h | h
    · cases hd : rm.isDirty <;> rw [hd] at h <;> simp at h
    · by_cases huser : params.user_id = some "USLACKBOT"
      · rw [if_pos huser] at h
        simp at h
      · rw [if_neg huser] at h
        simp at h
  have hPG : ¬("POST" = "GET") := by decide
  have hweb : handleWebhook "POST" url rooms authResult params histResp share fetch
      = { timerOutcomes := [.success], status := some 200
          postCalls := (if rm.isDirty then [PostCall.upsertRoom] else []) ++
            (if params.user_id = some "USLACKBOT" then [] else [PostCall.incCounter])
          crashed := false } := by
    unfold handleWebhook handleWebhookResolved
    rw [hurl]
    simp only [hpost, hpath, hroom]
    simp
  refine ⟨hnotmem, ?_, ?_, ?_⟩
  · rw [hpost]
  · rw [hweb]
  · rw [hweb]

/-- C10 witness: a concrete no-token no-text POST is acknowledged with
200 and a success timer, with the handler never invoked. -/
theorem C10_no_token_no_text_dropped_witness :
    PostCall.onSlackMessage ∉
      (handlePost (F := Unit) (B := Unit) (C := Unit) ⟨false, false⟩
        ⟨none, none, none, none, none, none, none⟩ ⟨false, none, none⟩
        (fun _ => .error ()) (fun _ => .error ())).1 ∧
    (handleWebhook (F := Unit) (B := Unit) (C := Unit) "POST"
        "/abc/01234567890123456789012345678901/post"
        (fun _ => some ⟨false, false⟩) ⟨none, ""⟩
        ⟨none, none, none, none, none, none, none⟩ ⟨false, none, none⟩
        (fun _ => .error ()) (fun _ => .error ())).timerOutcomes
      = [.success] ∧
    (handleWebhook (F := Unit) (B := Unit) (C := Unit) "POST"
        "/abc/01234567890123456789012345678901/post"
        (fun _ => some ⟨false, false⟩) ⟨none, ""⟩
        ⟨none, none, none, none, none, none, none⟩ ⟨false, none, none⟩
        (fun _ => .error ()) (fun _ => .error ())).status = some 200 := by
  have h := C10_no_token_no_text_dropped (F := Unit) (B := Unit) (C := Unit)
    "/abc/01234567890123456789012345678901/post"
    ⟨"01234567890123456789012345678901", "post"⟩
    (fun _ => some ⟨false, false⟩) ⟨false, false⟩ ⟨none, ""⟩
    ⟨none, none, none, none, none, none, none⟩ ⟨false, none, none⟩
    (fun _ => .error ()) (fun _ => .error ()) (by rfl) rfl rfl rfl rfl
  exact ⟨h.1, h.2.2.1, h.2.2.2⟩

end SlackBridge
